import Mathlib

/-!
Verification of the Trading-dashboard repository.

The dashboard code in `app.py` is embedded as executable Lean definitions:
trade records, the JSON-backed ledger persistence (`load_data` / `save_data`),
the weekly / monthly / advanced statistics functions, and the calendar-grid
builders.  Currency amounts and prices are modelled as rationals; Python's
fallible division is modelled with an `Option`-valued division (`divq`),
where `none` stands for a division fault / undefined value.

The intraday backtest simulator (VWAP calculator, strategy state machine,
portfolio accumulator) described by the specification has no code in the
repository snapshot; those components are modelled directly from the
specification text and marked as such on each definition.
-/

namespace TradingDashboard

/-- A calendar date as stored in a parsed trade record (`pd.to_datetime`
converts the journal's date strings to timestamps; at day resolution a
timestamp is a year/month/day triple). -/
structure Date where
  year : Nat
  month : Nat
  day : Nat
deriving DecidableEq

/-- Chronological comparison of dates, as performed by pandas timestamp
comparison: lexicographic on (year, month, day). -/
def dateLE (a b : Date) : Bool :=
  decide (a.year < b.year) ||
    (decide (a.year = b.year) &&
      (decide (a.month < b.month) ||
        (decide (a.month = b.month) && decide (a.day ≤ b.day))))

/-- A parsed trade row of the journal `trades_df`: columns `date`, `symbol`,
`type`, `realized` (realized profit and loss in currency units). -/
structure Trade where
  date : Date
  symbol : String
  type : String
  realized : ℚ
deriving DecidableEq

/-- Sum of the `realized` column of a list of trades (`Series.sum`). -/
def sumRealized (l : List Trade) : ℚ :=
  (l.map (fun t => t.realized)).sum

/-- Mean of the `realized` column (`Series.mean`), i.e. sum divided by
count; only ever used on nonempty lists in the dashboard code. -/
def meanRealized (l : List Trade) : ℚ :=
  sumRealized l / (l.length : ℚ)

/-- Maximum of the `realized` column of a nonempty list (`Series.max`);
returns 0 on the empty list (the dashboard guards that case anyway). -/
def maxRealized : List Trade → ℚ
  | [] => 0
  | t :: ts => ts.foldl (fun acc u => max acc u.realized) t.realized

/-- Minimum of the `realized` column of a nonempty list (`Series.min`);
returns 0 on the empty list (the dashboard guards that case anyway). -/
def minRealized : List Trade → ℚ
  | [] => 0
  | t :: ts => ts.foldl (fun acc u => min acc u.realized) t.realized

/-- Python division: a division fault / undefined value (`none`) when the
denominator is zero, the exact quotient otherwise. -/
def divq (a b : ℚ) : Option ℚ :=
  if b = 0 then none else some (a / b)

/-- `profitable_trades = weekly_trades[weekly_trades['realized'] > 0]`. -/
def winners (l : List Trade) : List Trade :=
  l.filter (fun t => decide (0 < t.realized))

/-- `losing_trades = weekly_trades[weekly_trades['realized'] <= 0]`. -/
def losers (l : List Trade) : List Trade :=
  l.filter (fun t => decide (t.realized ≤ 0))

/-- The week filter of `calculate_weekly_detailed_stats`: trades whose date
lies between `week_start_date` and `week_end_date` inclusive (the caller
computes `week_end_date = week_start_date + 6 days`). -/
def weeklyTrades (trades : List Trade) (weekStart weekEnd : Date) : List Trade :=
  trades.filter (fun t => dateLE weekStart t.date && dateLE t.date weekEnd)

/-- The month filter of `calculate_monthly_detailed_stats`: trades whose
date lies between `month_start_date` and `month_end_date` inclusive (the
caller computes `month_end_date = month_start_date + MonthEnd(1)`). -/
def monthlyTradesDetailed (trades : List Trade) (monthStart monthEnd : Date) : List Trade :=
  trades.filter (fun t => dateLE monthStart t.date && dateLE t.date monthEnd)

/-- The scalar statistics assembled by `calculate_weekly_detailed_stats`
and `calculate_monthly_detailed_stats` (the fields the verified claims are
about; the day-of-week and symbol breakdowns are rendered elsewhere). -/
structure DetailedStats where
  totalTrades : Nat
  totalPnl : ℚ
  portfolioChange : Option ℚ
  winRate : ℚ
  avgWin : ℚ
  avgLoss : ℚ
  largestWin : ℚ
  largestLoss : ℚ
deriving DecidableEq

/-- Shared body of the weekly and monthly detailed statistics: `None` when
the filtered set is empty, otherwise the statistics record.  The portfolio
change `(total_pnl / starting_balance) * 100` is computed without any guard
on `starting_balance`, hence the `divq`. -/
def detailedStatsOf (sel : List Trade) (startingBalance : ℚ) : Option DetailedStats :=
  if sel.isEmpty then none
  else some
    { totalTrades := sel.length
      totalPnl := sumRealized sel
      portfolioChange := (divq (sumRealized sel) startingBalance).map (fun q => q * 100)
      winRate :=
        if 0 < sel.length then ((winners sel).length : ℚ) / (sel.length : ℚ) * 100 else 0
      avgWin := if 0 < (winners sel).length then meanRealized (winners sel) else 0
      avgLoss := if 0 < (losers sel).length then meanRealized (losers sel) else 0
      largestWin := if 0 < (winners sel).length then maxRealized (winners sel) else 0
      largestLoss := if 0 < (losers sel).length then minRealized (losers sel) else 0 }

/-- `calculate_weekly_detailed_stats(trades_df, week_start_date,
starting_balance)` from `app.py`. -/
def calculate_weekly_detailed_stats (trades : List Trade) (weekStart weekEnd : Date)
    (startingBalance : ℚ) : Option DetailedStats :=
  detailedStatsOf (weeklyTrades trades weekStart weekEnd) startingBalance

/-- `calculate_monthly_detailed_stats(trades_df, month_start_date,
starting_balance)` from `app.py`. -/
def calculate_monthly_detailed_stats (trades : List Trade) (monthStart monthEnd : Date)
    (startingBalance : ℚ) : Option DetailedStats :=
  detailedStatsOf (monthlyTradesDetailed trades monthStart monthEnd) startingBalance

/-- A day-of-week group row of `day_performance` in
`calculate_advanced_monthly_stats`: `groupby('day_of_week')['realized']`
aggregated to `sum` and `count`, plus `avg_pnl = sum / count`. -/
structure DayPerf where
  day : String
  pnlSum : ℚ
  count : Nat
  avgPnl : ℚ
deriving DecidableEq

/-- `monthly_trades` of `calculate_advanced_monthly_stats`: trades whose
parsed date has the selected year and month. -/
def monthlyTradesAdv (trades : List Trade) (year month : Nat) : List Trade :=
  trades.filter (fun t => decide (t.date.year = year) && decide (t.date.month = month))

/-- The `day_performance` groupby: one row per distinct day-of-week value
occurring in the selection, with the group's sum, count, and
`avg_pnl = sum / count`.  `dow` is the external `Timestamp.day_name()`
mapping from a trade's date to its weekday name. -/
def dayPerformance (dow : Trade → String) (l : List Trade) : List DayPerf :=
  ((l.map dow).dedup).map (fun name =>
    let grp := l.filter (fun t => decide (dow t = name))
    { day := name
      pnlSum := sumRealized grp
      count := grp.length
      avgPnl := sumRealized grp / (grp.length : ℚ) })

/-- The record returned by `calculate_advanced_monthly_stats`. -/
structure AdvStats where
  totalTrades : Nat
  totalPnl : ℚ
  portfolioChange : Option ℚ
  winRate : ℚ
  avgWin : ℚ
  avgLoss : ℚ
  dayPerf : List DayPerf
deriving DecidableEq

/-- `calculate_advanced_monthly_stats(trades_df, month_year,
starting_balance)` from `app.py`: `None` when the month selection is empty,
otherwise the statistics record.  In this function the `win_rate` division
by `total_trades` carries no guard, and neither do the `avg_pnl` divisions
of the day-of-week groupby. -/
def calculate_advanced_monthly_stats (dow : Trade → String) (trades : List Trade)
    (year month : Nat) (startingBalance : ℚ) : Option AdvStats :=
  let mt := monthlyTradesAdv trades year month
  if mt.isEmpty then none
  else some
    { totalTrades := mt.length
      totalPnl := sumRealized mt
      portfolioChange := (divq (sumRealized mt) startingBalance).map (fun q => q * 100)
      winRate := ((winners mt).length : ℚ) / (mt.length : ℚ) * 100
      avgWin := if 0 < (winners mt).length then meanRealized (winners mt) else 0
      avgLoss := if 0 < (losers mt).length then meanRealized (losers mt) else 0
      dayPerf := dayPerformance dow mt }

/-- A JSON value, as produced by Python's `json.load` / consumed by
`json.dump` (objects keep insertion order, as Python dicts do). -/
inductive Json where
  | null : Json
  | bool : Bool → Json
  | num : ℚ → Json
  | str : String → Json
  | arr : List Json → Json
  | obj : List (String × Json) → Json

/-- Dictionary field access `j[k]` on a JSON object. -/
def jget (j : Json) (k : String) : Option Json :=
  match j with
  | .obj fields => fields.lookup k
  | _ => none

/-- A trade record as persisted in `trading_data.json`
(`{"date": ..., "symbol": ..., "type": ..., "realized": ...}`; the date is
stored as a string, parsing to a timestamp happens later in pandas). -/
structure TradeRec where
  date : String
  symbol : String
  type : String
  realized : ℚ
deriving DecidableEq

/-- A locate record as persisted in `trading_data.json`
(`{"date": ..., "symbol": ..., "totalCost": ...}`). -/
structure LocateRec where
  date : String
  symbol : String
  totalCost : ℚ
deriving DecidableEq

/-- The data record of the dashboard: the ledger persisted by `save_data`
and consumed everywhere via `data['trades']`, `data['locates']`,
`data['starting_balance']`. -/
structure Ledger where
  trades : List TradeRec
  locates : List LocateRec
  starting_balance : ℚ
deriving DecidableEq

/-- JSON encoding of one trade record, with the field order used by the
dashboard when it builds `new_trade`. -/
def encodeTrade (t : TradeRec) : Json :=
  .obj [("date", .str t.date), ("symbol", .str t.symbol),
        ("type", .str t.type), ("realized", .num t.realized)]

/-- JSON encoding of one locate record (`new_locate`). -/
def encodeLocate (l : LocateRec) : Json :=
  .obj [("date", .str l.date), ("symbol", .str l.symbol),
        ("totalCost", .num l.totalCost)]

/-- JSON encoding of the whole ledger, with the field order of the default
record in `load_data`. -/
def encodeLedger (d : Ledger) : Json :=
  .obj [("trades", .arr (d.trades.map encodeTrade)),
        ("locates", .arr (d.locates.map encodeLocate)),
        ("starting_balance", .num d.starting_balance)]

/-- Reading a trade record out of a parsed JSON value, via the field
accesses the dashboard performs (`trade['date']`, `trade['symbol']`,
`trade['type']`, `trade['realized']`). -/
def decodeTrade (j : Json) : Option TradeRec :=
  match jget j "date", jget j "symbol", jget j "type", jget j "realized" with
  | some (.str d), some (.str s), some (.str ty), some (.num r) => some ⟨d, s, ty, r⟩
  | _, _, _, _ => none

/-- Reading a locate record out of a parsed JSON value (`locate['date']`,
`locate['symbol']`, `locate['totalCost']`). -/
def decodeLocate (j : Json) : Option LocateRec :=
  match jget j "date", jget j "symbol", jget j "totalCost" with
  | some (.str d), some (.str s), some (.num c) => some ⟨d, s, c⟩
  | _, _, _ => none

/-- Decode every element of a JSON array, failing if any element fails. -/
def decodeListWith {α : Type} (f : Json → Option α) : List Json → Option (List α)
  | [] => some []
  | j :: js =>
    match f j, decodeListWith f js with
    | some a, some rest => some (a :: rest)
    | _, _ => none

/-- Reading the whole ledger out of a parsed JSON value, via the field
accesses the dashboard performs on `data`. -/
def decodeLedger (j : Json) : Option Ledger :=
  match jget j "trades", jget j "locates", jget j "starting_balance" with
  | some (.arr ts), some (.arr ls), some (.num b) =>
    match decodeListWith decodeTrade ts, decodeListWith decodeLocate ls with
    | some trades, some locates => some ⟨trades, locates, b⟩
    | _, _ => none
  | _, _, _ => none

/-- The state of the `trading_data.json` file: `none` when the file does
not exist, `some none` when it exists but does not parse as JSON, and
`some (some j)` when it parses to the value `j`. -/
def FileState : Type := Option (Option Json)

/-- The default data record `load_data` returns when the file is missing:
`{'trades': [], 'locates': [], 'starting_balance': 50000}`. -/
def defaultData : Json :=
  .obj [("trades", .arr []), ("locates", .arr []), ("starting_balance", .num 50000)]

/-- `load_data()` from `app.py`: returns the parsed JSON on success,
returns the default record when the file does not exist
(`except FileNotFoundError`), and propagates the exception when the file
exists but fails to parse. -/
def load_data (fs : FileState) : Except String Json :=
  match fs with
  | none => .ok defaultData
  | some none => .error "JSONDecodeError"
  | some (some j) => .ok j

/-- `save_data(data)` from `app.py`: overwrites `trading_data.json` with
the JSON serialization of the data record. -/
def save_data (d : Json) (_fs : FileState) : FileState :=
  some (some d)

/-- The dashboard return percentage computed in `main`:
`return_percent = (net_pnl / starting_balance) * 100 if starting_balance
else 0`, where `net_pnl = total_realized - total_locate_cost`. -/
def main_return_percent (d : Ledger) : ℚ :=
  let total_realized := (d.trades.map (fun t => t.realized)).sum
  let total_locate_cost := (d.locates.map (fun l => l.totalCost)).sum
  let net_pnl := total_realized - total_locate_cost
  if d.starting_balance ≠ 0 then net_pnl / d.starting_balance * 100 else 0

/-- A filled cell of the modern calendar view:
`{'date': date, 'day': date.day, 'pnl': stats['sum'],
'trades': stats['count']}`. -/
structure ModernCell where
  date : Date
  day : Nat
  pnl : ℚ
  trades : Nat
deriving DecidableEq

/-- A filled cell of the plain calendar view: `{'date': date.day,
'pnl': pnl}` (the `date` field holds the day number). -/
structure SimpleCell where
  date : Nat
  pnl : ℚ
deriving DecidableEq

/-- The daily-aggregation lookup `daily_pnl.get(date, {'sum': 0,
'count': 0})` for a given day of the selected month: sum and count of the
trades dated exactly that day (the groupby over the month-filtered frame
has an entry for a date exactly when some trade carries it, and the `get`
default covers the rest, so the lookup equals the aggregate over the
trades with that date). -/
def dailyAgg (trades : List Trade) (year month dayNum : Nat) : ℚ × Nat :=
  let grp := trades.filter (fun t => decide (t.date = ⟨year, month, dayNum⟩))
  (sumRealized grp, grp.length)

/-- The cell built by `create_modern_calendar_view` for one day. -/
def modernCell (trades : List Trade) (year month dayNum : Nat) : ModernCell :=
  { date := ⟨year, month, dayNum⟩
    day := dayNum
    pnl := (dailyAgg trades year month dayNum).1
    trades := (dailyAgg trades year month dayNum).2 }

/-- The cell built by `create_calendar_view` for one day
(`daily_pnl.get(date, 0)`). -/
def simpleCell (trades : List Trade) (year month dayNum : Nat) : SimpleCell :=
  { date := dayNum
    pnl := (dailyAgg trades year month dayNum).1 }

/-- The calendar-filling loop shared verbatim by `create_modern_calendar_view`
and `create_calendar_view`: append each day cell to the current week,
flush the week into the grid whenever it reaches 7 cells, and pad the
final partial week with `None` up to 7 cells. -/
def calFill {α : Type} (week : List (Option α)) : List α → List (List (Option α))
  | [] => if week.isEmpty then [] else [week ++ List.replicate (7 - week.length) none]
  | c :: rest =>
    let w := week ++ [some c]
    if w.length = 7 then w :: calFill [] rest else calFill w rest

/-- `create_modern_calendar_view(trades_df, year, month)` from `app.py`.
`firstWeekday` is `dates[0].weekday()` (0 = Monday, always `< 7`) and
`numDays` the number of days of the month, both delivered by the external
pandas calendar (`pd.date_range(start_date, end_date)`); the initial week
holds `firstWeekday` empty cells. -/
def create_modern_calendar_view (trades : List Trade) (year month : Nat)
    (firstWeekday numDays : Nat) : List (List (Option ModernCell)) :=
  calFill (List.replicate firstWeekday none)
    ((List.range numDays).map (fun i => modernCell trades year month (i + 1)))

/-- `create_calendar_view(trades_df, year, month)` from `app.py`, with the
same calendar parameters. -/
def create_calendar_view (trades : List Trade) (year month : Nat)
    (firstWeekday numDays : Nat) : List (List (Option SimpleCell)) :=
  calFill (List.replicate firstWeekday none)
    ((List.range numDays).map (fun i => simpleCell trades year month (i + 1)))

/-- Modelled from the spec: a minute bar of the backtest simulator's bar
series (§3), `{timestamp, open, high, low, close, volume}` with the
timestamp as minutes since midnight, exchange-local.  The simulator itself
is not part of the repository snapshot under version control here. -/
structure Bar where
  time : Nat
  open_ : ℚ
  high : ℚ
  low : ℚ
  close : ℚ
  volume : ℚ
deriving DecidableEq

/-- Modelled from the spec: `typical_price = (high + low + close) / 3`
(§3). -/
def typical_price (b : Bar) : ℚ :=
  (b.high + b.low + b.close) / 3

/-- Modelled from the spec: the running loop of the VWAP Calculator (§4.1)
with accumulators `cum_volume` and `cum_dollar_volume`; the VWAP of a bar
is `none` (the distinct "no data" condition) while `cum_volume == 0`. -/
def vwapGo (cumV cumPV : ℚ) : List Bar → List (Option ℚ)
  | [] => []
  | b :: rest =>
    let cv := cumV + b.volume
    let cpv := cumPV + typical_price b * b.volume
    (if cv = 0 then none else some (cpv / cv)) :: vwapGo cv cpv rest

/-- Modelled from the spec: the VWAP Calculator (§4.1), a single forward
pass over the bar series starting from zero accumulators. -/
def vwapSeries (bars : List Bar) : List (Option ℚ) :=
  vwapGo 0 0 bars

/-- Modelled from the spec: a TradeOutcome (§3) — entry and exit prices,
the percentage return, and the realized profit and loss. -/
structure TradeOutcome where
  entry_price : ℚ
  exit_price : ℚ
  return_pct : ℚ
  profit_loss : ℚ
deriving DecidableEq

/-- Modelled from the spec: `fixed_risk_budget = 6000` currency units
(§4.2). -/
def fixed_risk_budget : ℚ := 6000

/-- Modelled from the spec: the entry window [09:35, 09:45) of the
strategy (§4.2), in minutes since midnight. -/
def inEntryWindow (b : Bar) : Bool :=
  decide (575 ≤ b.time) && decide (b.time < 585)

/-- Modelled from the spec: the AwaitingEntryWindow scan (§4.2) — find the
first bar whose timestamp falls in the entry window and return it together
with the remaining series from that bar on (monitoring scans from the
entry bar through the session's last bar). -/
def findEntrySplit : List (Bar × Option ℚ) → Option (Bar × List (Bar × Option ℚ))
  | [] => none
  | bv :: rest =>
    if inEntryWindow bv.1 then some (bv.1, bv :: rest) else findEntrySplit rest

/-- Modelled from the spec: the terminal condition of the Monitoring scan
(§4.2) — either the stop was hit, or the session end was reached with the
given number of shares shorted. -/
inductive ScanResult where
  | stopHit : ScanResult
  | sessionEnd : ℚ → ScanResult
deriving DecidableEq

/-- Modelled from the spec: the Monitoring state (§4.2).  At each bar, if
the second tranche has not fired and the bar's close is below its VWAP,
short the remaining 70% tranche (at most once); if the bar's high reaches
the stop price, the stop is hit and scanning stops. -/
def monitorLoop (stop totalShares : ℚ) (shares : ℚ) (secondFired : Bool) :
    List (Bar × Option ℚ) → ScanResult
  | [] => .sessionEnd shares
  | (b, v) :: rest =>
    let fire := !secondFired &&
      (match v with
       | some vw => decide (b.close < vw)
       | none => false)
    let shares2 := if fire then shares + 7 / 10 * totalShares else shares
    if stop ≤ b.high then .stopHit
    else monitorLoop stop totalShares shares2 (secondFired || fire) rest

/-- Modelled from the spec: the session-close minute [15:59, 16:00)
(§4.2), in minutes since midnight. -/
def inCloseWindow (b : Bar) : Bool :=
  decide (b.time = 959)

/-- Modelled from the spec: the Strategy State Machine (§4.2) over one
day's bar series.  Entry at the open of the first bar in the entry window;
`stop_price = entry_price * 1.15`; `total_shares = fixed_risk_budget /
risk_per_share` with an initial 30% tranche; a degenerate
`risk_per_share <= 0` is treated as data-unavailable (§7); a stop hit
exits at the stop price with `profit_loss = -fixed_risk_budget`; otherwise
the position is covered at the close of the bar found in the session-close
minute, with the shares-weighted profit and loss. -/
def runStrategy (bars : List Bar) : Option TradeOutcome :=
  match findEntrySplit (bars.zip (vwapSeries bars)) with
  | none => none
  | some (entryBar, scan) =>
    let entry := entryBar.open_
    let stop := entry * (115 / 100)
    let risk := stop - entry
    if risk ≤ 0 then none
    else
      let total := fixed_risk_budget / risk
      let sharesInit := 3 / 10 * total
      match monitorLoop stop total sharesInit false scan with
      | .stopHit =>
        some { entry_price := entry, exit_price := stop
               return_pct := (entry - stop) / entry * 100
               profit_loss := -fixed_risk_budget }
      | .sessionEnd shares =>
        match scan.find? (fun bv => inCloseWindow bv.1) with
        | none => none
        | some (cb, _) =>
          some { entry_price := entry, exit_price := cb.close
                 return_pct := (entry - cb.close) / entry * 100
                 profit_loss := shares * (entry - cb.close) }

/-- Modelled from the spec: the Portfolio Accumulator (§4.4) — the equity
curve starts with the configured initial equity and each trade outcome's
profit and loss is folded in sequentially. -/
def portfolioCurve (initialEquity : ℚ) : List ℚ → List ℚ
  | pnls => initialEquity :: portfolioGo initialEquity pnls
where
  portfolioGo (equity : ℚ) : List ℚ → List ℚ
    | [] => []
    | p :: ps => (equity + p) :: portfolioGo (equity + p) ps

/-- Modelled from the spec: the default initial equity of a batch run,
20,000 currency units (§4.4). -/
def defaultInitialEquity : ℚ := 20000

lemma winners_losers_length (l : List Trade) :
    (winners l).length + (losers l).length = l.length := by
  induction l with
  | nil => rfl
  | cons t ts ih =>
    simp only [winners, losers, List.filter_cons] at ih ⊢
    by_cases h : 0 < t.realized
    · simp [h, not_le.mpr h]
      omega
    · simp [h, not_lt.mp h]
      omega

lemma mem_winners (l : List Trade) (t : Trade) :
    t ∈ winners l ↔ t ∈ l ∧ 0 < t.realized := by
  simp [winners, List.mem_filter]

lemma mem_losers (l : List Trade) (t : Trade) :
    t ∈ losers l ↔ t ∈ l ∧ t.realized ≤ 0 := by
  simp [losers, List.mem_filter]

lemma detailedStatsOf_some (sel : List Trade) (sb : ℚ) (s : DetailedStats)
    (h : detailedStatsOf sel sb = some s) :
    ¬sel.isEmpty ∧
      s.portfolioChange = (divq (sumRealized sel) sb).map (fun q => q * 100) ∧
      s.avgWin = (if 0 < (winners sel).length then meanRealized (winners sel) else 0) ∧
      s.avgLoss = (if 0 < (losers sel).length then meanRealized (losers sel) else 0) := by
  unfold detailedStatsOf at h
  by_cases he : sel.isEmpty
  · simp [he] at h
  · simp only [he, if_false] at h
    obtain rfl := (Option.some_inj.mp h).symm
    exact ⟨he, rfl, rfl, rfl⟩

/-- C1: the dashboard return percentage in `main` is guarded and yields 0
for a zero starting balance, but `portfolio_percent_change` in
`calculate_weekly_detailed_stats` and `calculate_monthly_detailed_stats`
divides by the starting balance without a guard, so with a zero starting
balance the statistic is a division fault (`none`) while the functions
still return a statistics record instead of treating the input as
data-unavailable. -/
theorem zero_balance_division_behavior :
    (∀ trades locates, main_return_percent ⟨trades, locates, 0⟩ = 0) ∧
    (∀ trades ws we s, calculate_weekly_detailed_stats trades ws we 0 = some s →
      s.portfolioChange = none) ∧
    (∀ trades ms me s, calculate_monthly_detailed_stats trades ms me 0 = some s →
      s.portfolioChange = none) := by
  refine ⟨fun trades locates => by simp [main_return_percent], ?_, ?_⟩
  · intro trades ws we s h
    have hpc := (detailedStatsOf_some _ _ _ h).2.1
    simp [divq] at hpc
    exact hpc
  · intro trades ms me s h
    have hpc := (detailedStatsOf_some _ _ _ h).2.1
    simp [divq] at hpc
    exact hpc

/-- Witness for C1's amended theorem: a concrete weekly request with a
zero starting balance returns a record whose portfolio change is the
division fault. -/
theorem zero_balance_division_behavior_witness :
    calculate_weekly_detailed_stats ([⟨⟨2025, 1, 6⟩, "AAPL", "Long", 100⟩] : List Trade)
        ⟨2025, 1, 6⟩ ⟨2025, 1, 12⟩ 0 =
      some ⟨1, 100, none, 100, 100, 0, 100, 0⟩ ∧
    (⟨1, 100, none, 100, 100, 0, 100, 0⟩ : DetailedStats).portfolioChange = none :=
  ⟨by norm_num [calculate_weekly_detailed_stats, detailedStatsOf, weeklyTrades, dateLE,
      winners, losers, sumRealized, meanRealized, maxRealized, minRealized, divq],
   zero_balance_division_behavior.2.1 [⟨⟨2025, 1, 6⟩, "AAPL", "Long", 100⟩]
     ⟨2025, 1, 6⟩ ⟨2025, 1, 12⟩ ⟨1, 100, none, 100, 100, 0, 100, 0⟩
     (by norm_num [calculate_weekly_detailed_stats, detailedStatsOf, weeklyTrades, dateLE,
       winners, losers, sumRealized, meanRealized, maxRealized, minRealized, divq])⟩

/-- Counterexample for C1 as stated: at a concrete input with zero
starting balance, `calculate_weekly_detailed_stats` does not treat the
request as data-unavailable — it returns a statistics record — and the
portfolio-change statistic in that record is the division fault `none`. -/
theorem weekly_zero_balance_not_unavailable :
    (calculate_weekly_detailed_stats ([⟨⟨2025, 1, 6⟩, "AAPL", "Long", 100⟩] : List Trade)
        ⟨2025, 1, 6⟩ ⟨2025, 1, 12⟩ 0).map (fun s => s.portfolioChange) =
      some none := by
  norm_num [calculate_weekly_detailed_stats, detailedStatsOf, weeklyTrades, dateLE,
    winners, losers, sumRealized, meanRealized, maxRealized, minRealized, divq]

/-- C3: the portfolio equity curve starts with the configured initial
equity before any trade outcome is folded in, and the default initial
equity is 20,000 currency units. -/
theorem equity_curve_starts_at_initial (initialEquity : ℚ) (pnls : List ℚ) :
    (portfolioCurve initialEquity pnls).head? = some initialEquity ∧
    defaultInitialEquity = 20000 :=
  ⟨rfl, rfl⟩

/-- C5: the profitable/losing filters partition any set of trade records
exactly — a trade is a win iff its realized P&L is strictly positive, a
loss iff it is ≤ 0, no trade is both, and the win count plus the loss
count equals the total count. -/
theorem winners_losers_partition (l : List Trade) :
    (winners l).length + (losers l).length = l.length ∧
    ∀ t ∈ l, (t ∈ winners l ↔ 0 < t.realized) ∧ (t ∈ losers l ↔ t.realized ≤ 0) ∧
      ¬(t ∈ winners l ∧ t ∈ losers l) := by
  refine ⟨winners_losers_length l, fun t ht => ⟨?_, ?_, ?_⟩⟩
  · rw [mem_winners]
    exact ⟨fun h => h.2, fun h => ⟨ht, h⟩⟩
  · rw [mem_losers]
    exact ⟨fun h => h.2, fun h => ⟨ht, h⟩⟩
  · rintro ⟨hw, hl⟩
    exact absurd ((mem_losers l t).mp hl).2 (not_le.mpr ((mem_winners l t).mp hw).2)

/-- Witness for C5 at a concrete one-trade record set. -/
theorem winners_losers_partition_witness :
    ((winners [⟨⟨2025, 1, 6⟩, "AAPL", "Long", 100⟩]).length +
        (losers [⟨⟨2025, 1, 6⟩, "AAPL", "Long", 100⟩]).length =
      ([⟨⟨2025, 1, 6⟩, "AAPL", "Long", 100⟩] : List Trade).length) ∧
    ((⟨⟨2025, 1, 6⟩, "AAPL", "Long", 100⟩ : Trade) ∈
        winners [⟨⟨2025, 1, 6⟩, "AAPL", "Long", 100⟩] ↔
      0 < (⟨⟨2025, 1, 6⟩, "AAPL", "Long", 100⟩ : Trade).realized) :=
  ⟨(winners_losers_partition [⟨⟨2025, 1, 6⟩, "AAPL", "Long", 100⟩]).1,
   ((winners_losers_partition [⟨⟨2025, 1, 6⟩, "AAPL", "Long", 100⟩]).2
     ⟨⟨2025, 1, 6⟩, "AAPL", "Long", 100⟩ (by simp)).1⟩

lemma advancedStats_some (dow : Trade → String) (trades : List Trade) (year month : Nat)
    (sb : ℚ) (s : AdvStats)
    (h : calculate_advanced_monthly_stats dow trades year month sb = some s) :
    ¬(monthlyTradesAdv trades year month).isEmpty ∧
      s.totalTrades = (monthlyTradesAdv trades year month).length ∧
      s.avgWin = (if 0 < (winners (monthlyTradesAdv trades year month)).length then
        meanRealized (winners (monthlyTradesAdv trades year month)) else 0) ∧
      s.avgLoss = (if 0 < (losers (monthlyTradesAdv trades year month)).length then
        meanRealized (losers (monthlyTradesAdv trades year month)) else 0) ∧
      s.dayPerf = dayPerformance dow (monthlyTradesAdv trades year month) := by
  unfold calculate_advanced_monthly_stats at h
  by_cases he : (monthlyTradesAdv trades year month).isEmpty
  · simp [he] at h
  · simp only [he, if_false] at h
    obtain rfl := (Option.some_inj.mp h).symm
    exact ⟨he, rfl, rfl, rfl, rfl⟩

lemma mean_eq_sum_div (l : List Trade) : meanRealized l = sumRealized l / (l.length : ℚ) :=
  rfl

/-- C6: in the weekly, monthly and advanced statistics, the average win is
the mean realized P&L of the trades with strictly positive realized P&L
(0 when there are none) and the average loss is the mean realized P&L of
the trades with realized P&L ≤ 0 (0 when there are none). -/
theorem avg_win_loss_is_mean (trades : List Trade) (ws we ms me : Date)
    (year month : Nat) (dow : Trade → String) (sb : ℚ) :
    (∀ s, calculate_weekly_detailed_stats trades ws we sb = some s →
      ((winners (weeklyTrades trades ws we) = [] → s.avgWin = 0) ∧
       (winners (weeklyTrades trades ws we) ≠ [] →
         s.avgWin = sumRealized (winners (weeklyTrades trades ws we)) /
           ((winners (weeklyTrades trades ws we)).length : ℚ)) ∧
       (losers (weeklyTrades trades ws we) = [] → s.avgLoss = 0) ∧
       (losers (weeklyTrades trades ws we) ≠ [] →
         s.avgLoss = sumRealized (losers (weeklyTrades trades ws we)) /
           ((losers (weeklyTrades trades ws we)).length : ℚ)))) ∧
    (∀ s, calculate_monthly_detailed_stats trades ms me sb = some s →
      ((winners (monthlyTradesDetailed trades ms me) = [] → s.avgWin = 0) ∧
       (winners (monthlyTradesDetailed trades ms me) ≠ [] →
         s.avgWin = sumRealized (winners (monthlyTradesDetailed trades ms me)) /
           ((winners (monthlyTradesDetailed trades ms me)).length : ℚ)) ∧
       (losers (monthlyTradesDetailed trades ms me) = [] → s.avgLoss = 0) ∧
       (losers (monthlyTradesDetailed trades ms me) ≠ [] →
         s.avgLoss = sumRealized (losers (monthlyTradesDetailed trades ms me)) /
           ((losers (monthlyTradesDetailed trades ms me)).length : ℚ)))) ∧
    (∀ s, calculate_advanced_monthly_stats dow trades year month sb = some s →
      ((winners (monthlyTradesAdv trades year month) = [] → s.avgWin = 0) ∧
       (winners (monthlyTradesAdv trades year month) ≠ [] →
         s.avgWin = sumRealized (winners (monthlyTradesAdv trades year month)) /
           ((winners (monthlyTradesAdv trades year month)).length : ℚ)) ∧
       (losers (monthlyTradesAdv trades year month) = [] → s.avgLoss = 0) ∧
       (losers (monthlyTradesAdv trades year month) ≠ [] →
         s.avgLoss = sumRealized (losers (monthlyTradesAdv trades year month)) /
           ((losers (monthlyTradesAdv trades year month)).length : ℚ)))) := by
  have key : ∀ (sel : List Trade) (aW aL : ℚ),
      aW = (if 0 < (winners sel).length then meanRealized (winners sel) else 0) →
      aL = (if 0 < (losers sel).length then meanRealized (losers sel) else 0) →
      ((winners sel = [] → aW = 0) ∧
       (winners sel ≠ [] → aW = sumRealized (winners sel) / ((winners sel).length : ℚ)) ∧
       (losers sel = [] → aL = 0) ∧
       (losers sel ≠ [] → aL = sumRealized (losers sel) / ((losers sel).length : ℚ))) := by
    intro sel aW aL hW hL
    refine ⟨fun h => ?_, fun h => ?_, fun h => ?_, fun h => ?_⟩
    · simp [hW, h]
    · rw [hW, if_pos (List.length_pos.mpr h)]
      exact mean_eq_sum_div _
    · simp [hL, h]
    · rw [hL, if_pos (List.length_pos.mpr h)]
      exact mean_eq_sum_div _
  refine ⟨fun s h => ?_, fun s h => ?_, fun s h => ?_⟩
  · obtain ⟨-, -, hW, hL⟩ := detailedStatsOf_some _ _ _ h
    exact key _ _ _ hW hL
  · obtain ⟨-, -, hW, hL⟩ := detailedStatsOf_some _ _ _ h
    exact key _ _ _ hW hL
  · obtain ⟨-, -, hW, hL, -⟩ := advancedStats_some _ _ _ _ _ _ h
    exact key _ _ _ hW hL

/-- Witness for C6: concrete weekly statistics over one winning trade —
the average win is the mean over the winners and the average loss is 0. -/
theorem avg_win_loss_is_mean_witness :
    calculate_weekly_detailed_stats ([⟨⟨2025, 1, 6⟩, "AAPL", "Long", 100⟩] : List Trade)
        ⟨2025, 1, 6⟩ ⟨2025, 1, 12⟩ 50000 =
      some ⟨1, 100, some (1 / 5), 100, 100, 0, 100, 0⟩ ∧
    winners (weeklyTrades [⟨⟨2025, 1, 6⟩, "AAPL", "Long", 100⟩] ⟨2025, 1, 6⟩ ⟨2025, 1, 12⟩) ≠
      [] ∧
    (⟨1, 100, some (1 / 5), 100, 100, 0, 100, 0⟩ : DetailedStats).avgWin =
      sumRealized
          (winners (weeklyTrades [⟨⟨2025, 1, 6⟩, "AAPL", "Long", 100⟩]
            ⟨2025, 1, 6⟩ ⟨2025, 1, 12⟩)) /
        ((winners (weeklyTrades [⟨⟨2025, 1, 6⟩, "AAPL", "Long", 100⟩]
          ⟨2025, 1, 6⟩ ⟨2025, 1, 12⟩)).length : ℚ) := by
  refine ⟨?_, ?_, ?_⟩
  · norm_num [calculate_weekly_detailed_stats, detailedStatsOf, weeklyTrades, dateLE,
      winners, losers, sumRealized, meanRealized, maxRealized, minRealized, divq]
  · norm_num [weeklyTrades, dateLE, winners]
  · exact ((avg_win_loss_is_mean [⟨⟨2025, 1, 6⟩, "AAPL", "Long", 100⟩]
      ⟨2025, 1, 6⟩ ⟨2025, 1, 12⟩ ⟨2025, 1, 1⟩ ⟨2025, 1, 31⟩ 2025 1 (fun _ => "Monday")
      50000).1 ⟨1, 100, some (1 / 5), 100, 100, 0, 100, 0⟩
      (by norm_num [calculate_weekly_detailed_stats, detailedStatsOf, weeklyTrades, dateLE,
        winners, losers, sumRealized, meanRealized, maxRealized, minRealized,
        divq])).2.1
      (by norm_num [weeklyTrades, dateLE, winners])

lemma decodeTrade_encodeTrade (t : TradeRec) : decodeTrade (encodeTrade t) = some t :=
  rfl

lemma decodeLocate_encodeLocate (l : LocateRec) : decodeLocate (encodeLocate l) = some l :=
  rfl

lemma decodeListWith_map {α : Type} (f : α → Json) (g : Json → Option α)
    (hfg : ∀ a, g (f a) = some a) (l : List α) :
    decodeListWith g (l.map f) = some l := by
  induction l with
  | nil => rfl
  | cons a t ih =>
    rw [List.map_cons]
    unfold decodeListWith
    rw [hfg a, ih]

/-- C7: saving a ledger with `save_data` and loading it back with
`load_data` is the identity on the data record — the loaded JSON is
exactly the saved JSON, and reading its fields back the way the dashboard
does recovers the original trades, locates and starting balance. -/
theorem save_load_roundtrip (d : Ledger) (fs : FileState) :
    load_data (save_data (encodeLedger d) fs) = .ok (encodeLedger d) ∧
    decodeLedger (encodeLedger d) = some d := by
  refine ⟨rfl, ?_⟩
  have hT : decodeListWith decodeTrade (d.trades.map encodeTrade) = some d.trades :=
    decodeListWith_map _ _ decodeTrade_encodeTrade d.trades
  have hL : decodeListWith decodeLocate (d.locates.map encodeLocate) = some d.locates :=
    decodeListWith_map _ _ decodeLocate_encodeLocate d.locates
  simp [decodeLedger, encodeLedger, jget, List.lookup, hT, hL]

/-- C9: when `trading_data.json` does not exist, `load_data` does not
raise — it returns the default record with empty trades, empty locates and
starting balance 50,000 — and it propagates an error exactly when the file
exists but fails to parse. -/
theorem load_data_missing_file :
    load_data none = .ok defaultData ∧
    decodeLedger defaultData = some ⟨[], [], 50000⟩ ∧
    ∀ fs : FileState, (∃ e, load_data fs = .error e) ↔ fs = some none := by
  refine ⟨rfl, rfl, ?_⟩
  intro fs
  match fs with
  | none => simp [load_data, defaultData]
  | some none => simp [load_data]
  | some (some j) =>
    refine iff_of_false ?_ ?_
    · rintro ⟨e, he⟩
      exact Except.noConfusion he
    · intro h
      injection h with h1
      exact Option.noConfusion h1

lemma dayPerformance_count_pos (dow : Trade → String) (l : List Trade) :
    ∀ p ∈ dayPerformance dow l, 0 < p.count := by
  intro p hp
  unfold dayPerformance at hp
  rw [List.mem_map] at hp
  obtain ⟨name, hname, rfl⟩ := hp
  have hmem : name ∈ l.map dow := List.mem_dedup.mp hname
  rw [List.mem_map] at hmem
  obtain ⟨t, ht, hdow⟩ := hmem
  have : t ∈ l.filter (fun u => decide (dow u = name)) := by
    rw [List.mem_filter]
    exact ⟨ht, by simp [hdow]⟩
  simpa using List.length_pos.mpr (List.ne_nil_of_mem this)

/-- C8: `calculate_advanced_monthly_stats` returns `None` exactly when no
trade's date falls in the selected month; otherwise it returns a record
with a strictly positive total trade count and strictly positive counts in
every day-of-week group, so its unguarded `win_rate` and `avg_pnl`
divisions have nonzero denominators. -/
theorem advanced_stats_guard (dow : Trade → String) (trades : List Trade)
    (year month : Nat) (sb : ℚ) :
    (calculate_advanced_monthly_stats dow trades year month sb = none ↔
      ∀ t ∈ trades, ¬(t.date.year = year ∧ t.date.month = month)) ∧
    ∀ s, calculate_advanced_monthly_stats dow trades year month sb = some s →
      0 < s.totalTrades ∧ ∀ p ∈ s.dayPerf, 0 < p.count := by
  constructor
  · unfold calculate_advanced_monthly_stats
    by_cases he : (monthlyTradesAdv trades year month).isEmpty
    · simp only [he, if_true, true_iff]
      have := List.isEmpty_iff.mp he
      unfold monthlyTradesAdv at this
      intro t ht hcond
      have : t ∈ (List.nil : List Trade) := by
        rw [← this, List.mem_filter]
        exact ⟨ht, by simp [hcond.1, hcond.2]⟩
      simp at this
    · simp only [he, if_false]
      constructor
      · intro h
        exact absurd h (Option.some_ne_none _)
      · intro hall
        exfalso
        apply he
        rw [List.isEmpty_iff]
        unfold monthlyTradesAdv
        rw [List.filter_eq_nil_iff]
        intro t ht
        simp only [Bool.and_eq_true, decide_eq_true_eq]
        intro hcond
        exact hall t ht hcond
  · intro s h
    obtain ⟨he, hTot, -, -, hDP⟩ := advancedStats_some _ _ _ _ _ _ h
    refine ⟨?_, ?_⟩
    · rw [hTot]
      have := List.isEmpty_iff.not.mp he
      exact List.length_pos.mpr this
    · rw [hDP]
      exact dayPerformance_count_pos dow _

/-- Witness for C8: a concrete one-trade month — the result is present,
the total count is positive and the single weekday group has a positive
count. -/
theorem advanced_stats_guard_witness :
    calculate_advanced_monthly_stats (fun _ => "Monday")
        ([⟨⟨2025, 1, 6⟩, "AAPL", "Long", 100⟩] : List Trade) 2025 1 50000 =
      some ⟨1, 100, some (1 / 5), 100, 100, 0, [⟨"Monday", 100, 1, 100⟩]⟩ ∧
    (0 < (⟨1, 100, some (1 / 5), 100, 100, 0,
        [⟨"Monday", 100, 1, 100⟩]⟩ : AdvStats).totalTrades ∧
      ∀ p ∈ (⟨1, 100, some (1 / 5), 100, 100, 0,
        [⟨"Monday", 100, 1, 100⟩]⟩ : AdvStats).dayPerf, 0 < p.count) := by
  have hres : calculate_advanced_monthly_stats (fun _ => "Monday")
      ([⟨⟨2025, 1, 6⟩, "AAPL", "Long", 100⟩] : List Trade) 2025 1 50000 =
      some ⟨1, 100, some (1 / 5), 100, 100, 0, [⟨"Monday", 100, 1, 100⟩]⟩ := by
    norm_num [calculate_advanced_monthly_stats, monthlyTradesAdv, dayPerformance,
      winners, losers, sumRealized, meanRealized, divq, List.dedup]
  exact ⟨hres,
    (advanced_stats_guard (fun _ => "Monday") [⟨⟨2025, 1, 6⟩, "AAPL", "Long", 100⟩]
      2025 1 50000).2 ⟨1, 100, some (1 / 5), 100, 100, 0, [⟨"Monday", 100, 1, 100⟩]⟩ hres⟩

lemma calFill_spec {α : Type} (days : List α) :
    ∀ week : List (Option α), week.length < 7 →
      (∀ r ∈ calFill week days, r.length = 7) ∧
      ∃ k, (calFill week days).flatten = week ++ days.map some ++ List.replicate k none := by
  induction days with
  | nil =>
    intro week hw
    constructor
    · intro r hr
      unfold calFill at hr
      by_cases he : week.isEmpty
      · simp [he] at hr
      · simp [he] at hr
        subst hr
        simp only [List.length_append, List.length_replicate]
        omega
    · by_cases he : week.isEmpty
      · refine ⟨0, ?_⟩
        rw [List.isEmpty_iff.mp he]
        simp [calFill]
      · refine ⟨7 - week.length, ?_⟩
        unfold calFill
        simp [he]
  | cons c rest ih =>
    intro week hw
    unfold calFill
    by_cases h7 : (week ++ [some c]).length = 7
    · simp only [h7, if_true]
      constructor
      · intro r hr
        rcases List.mem_cons.mp hr with rfl | hr
        · exact h7
        · exact (ih [] (by norm_num)).1 r hr
      · obtain ⟨k, hk⟩ := (ih [] (by norm_num)).2
        refine ⟨k, ?_⟩
        simp only [List.flatten_cons, hk, List.nil_append, List.map_cons]
        simp
    · simp only [h7, if_false]
      have hlt : (week ++ [some c]).length < 7 := by
        rw [List.length_append] at h7 ⊢
        simp only [List.length_singleton] at h7 ⊢
        omega
      constructor
      · exact fun r hr => (ih _ hlt).1 r hr
      · obtain ⟨k, hk⟩ := (ih _ hlt).2
        refine ⟨k, ?_⟩
        rw [hk]
        simp

/-- C10: for every month parameterization, both calendar builders return a
grid of rows of exactly 7 cells whose concatenation is: `firstWeekday`
leading `None` padding cells, then one cell per day of the month in
increasing order (day 1 through `numDays`, each exactly once), then
trailing `None` padding cells. -/
theorem calendar_grid_invariant (trades : List Trade)
    (year month firstWeekday numDays : Nat) (hw : firstWeekday < 7) :
    (∀ r ∈ create_modern_calendar_view trades year month firstWeekday numDays,
      r.length = 7) ∧
    (∃ k, (create_modern_calendar_view trades year month firstWeekday numDays).flatten =
      List.replicate firstWeekday none ++
        (List.range numDays).map (fun i => some (modernCell trades year month (i + 1))) ++
        List.replicate k none) ∧
    (∀ r ∈ create_calendar_view trades year month firstWeekday numDays, r.length = 7) ∧
    (∃ k, (create_calendar_view trades year month firstWeekday numDays).flatten =
      List.replicate firstWeekday none ++
        (List.range numDays).map (fun i => some (simpleCell trades year month (i + 1))) ++
        List.replicate k none) := by
  have hwm : (List.replicate firstWeekday (none : Option ModernCell)).length < 7 := by
    simpa using hw
  have hws : (List.replicate firstWeekday (none : Option SimpleCell)).length < 7 := by
    simpa using hw
  obtain ⟨hr1, k1, hj1⟩ :=
    calFill_spec ((List.range numDays).map (fun i => modernCell trades year month (i + 1)))
      (List.replicate firstWeekday none) hwm
  obtain ⟨hr2, k2, hj2⟩ :=
    calFill_spec ((List.range numDays).map (fun i => simpleCell trades year month (i + 1)))
      (List.replicate firstWeekday none) hws
  refine ⟨hr1, ⟨k1, ?_⟩, hr2, ⟨k2, ?_⟩⟩
  · rw [create_modern_calendar_view, hj1, List.map_map]
    rfl
  · rw [create_calendar_view, hj2, List.map_map]
    rfl

/-- Witness for C10 at a concrete month shape (first weekday 2, 31 days)
with no trades. -/
theorem calendar_grid_invariant_witness :
    2 < 7 ∧
    ∀ r ∈ create_modern_calendar_view ([] : List Trade) 2025 1 2 31, r.length = 7 :=
  ⟨by norm_num,
   (calendar_grid_invariant [] 2025 1 2 31 (by norm_num)).1⟩

lemma vwapGo_defined :
    ∀ (l : List Bar) (cv cpv : ℚ) (i : Nat),
      (∀ b ∈ l, 0 ≤ b.volume) → 0 ≤ cv →
      (0 < cv ∨ ∃ j b, j ≤ i ∧ l[j]? = some b ∧ 0 < b.volume) →
      i < l.length →
      ∃ v, (vwapGo cv cpv l)[i]? = some (some v) := by
  intro l
  induction l with
  | nil =>
    intro cv cpv i _ _ _ hi
    simp at hi
  | cons b t ih =>
    intro cv cpv i hnn hcv hsrc hi
    have hbv : 0 ≤ b.volume := hnn b (by simp)
    match i with
    | 0 =>
      have hpos : 0 < cv + b.volume := by
        rcases hsrc with h | ⟨j, b', hj, hget, hv⟩
        · linarith
        · have hj0 : j = 0 := Nat.le_zero.mp hj
          subst hj0
          simp only [List.getElem?_cons_zero, Option.some_inj] at hget
          subst hget
          linarith
      exact ⟨(cpv + typical_price b * b.volume) / (cv + b.volume),
        by simp [vwapGo, ne_of_gt hpos]⟩
    | Nat.succ i' =>
      have htail : (vwapGo cv cpv (b :: t))[i' + 1]? =
          (vwapGo (cv + b.volume) (cpv + typical_price b * b.volume) t)[i']? := by
        simp [vwapGo]
      rw [htail]
      apply ih (cv + b.volume) _ i' (fun x hx => hnn x (by simp [hx])) (by linarith)
      · rcases hsrc with h | ⟨j, b', hj, hget, hv⟩
        · exact Or.inl (by linarith)
        · match j with
          | 0 =>
            simp only [List.getElem?_cons_zero, Option.some_inj] at hget
            subst hget
            exact Or.inl (by linarith)
          | Nat.succ j' =>
            simp only [List.getElem?_cons_succ] at hget
            exact Or.inr ⟨j', b', Nat.succ_le_succ_iff.mp hj, hget, hv⟩
      · simpa using hi

lemma vwapGo_causal :
    ∀ (i : Nat) (cv cpv : ℚ) (l₁ l₂ : List Bar),
      l₁.take (i + 1) = l₂.take (i + 1) →
      (vwapGo cv cpv l₁)[i]? = (vwapGo cv cpv l₂)[i]? := by
  intro i
  induction i with
  | zero =>
    intro cv cpv l₁ l₂ h
    match l₁, l₂ with
    | [], [] => rfl
    | [], b₂ :: t₂ => simp at h
    | b₁ :: t₁, [] => simp at h
    | b₁ :: t₁, b₂ :: t₂ =>
      rw [List.take_succ_cons, List.take_succ_cons] at h
      injection h with hb _
      subst hb
      simp [vwapGo]
  | succ i' ih =>
    intro cv cpv l₁ l₂ h
    match l₁, l₂ with
    | [], [] => rfl
    | [], b₂ :: t₂ => simp at h
    | b₁ :: t₁, [] => simp at h
    | b₁ :: t₁, b₂ :: t₂ =>
      rw [List.take_succ_cons, List.take_succ_cons] at h
      injection h with hb ht
      subst hb
      simp only [vwapGo, List.getElem?_cons_succ]
      exact ih _ _ _ _ ht

/-- C4: over any bar series with nonnegative volumes, the VWAP at bar `i`
is defined (not the "no data" marker) as soon as some bar at index `≤ i`
has strictly positive volume, and it depends only on bars with index
`≤ i` — two series agreeing on their first `i + 1` bars have the same
VWAP at bar `i`. -/
theorem vwap_defined_and_causal (bars bars₂ : List Bar) (i : Nat) :
    ((∀ b ∈ bars, 0 ≤ b.volume) → i < bars.length →
      (∃ j b, j ≤ i ∧ bars[j]? = some b ∧ 0 < b.volume) →
      ∃ v, (vwapSeries bars)[i]? = some (some v)) ∧
    (bars.take (i + 1) = bars₂.take (i + 1) →
      (vwapSeries bars)[i]? = (vwapSeries bars₂)[i]?) := by
  constructor
  · intro hnn hi hsrc
    exact vwapGo_defined bars 0 0 i hnn le_rfl (Or.inr hsrc) hi
  · intro h
    exact vwapGo_causal i 0 0 bars bars₂ h

/-- Witness for C4: a concrete two-bar series whose second bar has
positive volume — the VWAP at index 1 is defined, and appending a later
bar does not change it. -/
theorem vwap_defined_and_causal_witness :
    (∃ v, (vwapSeries [⟨575, 1, 1, 1, 1, 0⟩, ⟨576, 1, 2, 1, 1, 2⟩])[1]? =
      some (some v)) ∧
    (vwapSeries [⟨575, 1, 1, 1, 1, 0⟩, ⟨576, 1, 2, 1, 1, 2⟩])[1]? =
      (vwapSeries [⟨575, 1, 1, 1, 1, 0⟩, ⟨576, 1, 2, 1, 1, 2⟩,
        ⟨577, 1, 3, 1, 1, 3⟩])[1]? :=
  ⟨(vwap_defined_and_causal [⟨575, 1, 1, 1, 1, 0⟩, ⟨576, 1, 2, 1, 1, 2⟩]
      [⟨575, 1, 1, 1, 1, 0⟩, ⟨576, 1, 2, 1, 1, 2⟩, ⟨577, 1, 3, 1, 1, 3⟩] 1).1
    (by intro b hb
        simp only [List.mem_cons, List.not_mem_nil, or_false] at hb
        rcases hb with rfl | rfl <;> norm_num)
    (by norm_num)
    ⟨1, ⟨576, 1, 2, 1, 1, 2⟩, by norm_num, rfl, by norm_num⟩,
   (vwap_defined_and_causal [⟨575, 1, 1, 1, 1, 0⟩, ⟨576, 1, 2, 1, 1, 2⟩]
      [⟨575, 1, 1, 1, 1, 0⟩, ⟨576, 1, 2, 1, 1, 2⟩, ⟨577, 1, 3, 1, 1, 3⟩] 1).2 rfl⟩

lemma monitorLoop_stopHit (stop totalShares : ℚ) :
    ∀ (l : List (Bar × Option ℚ)) (shares : ℚ) (fired : Bool),
      (∃ bv ∈ l, stop ≤ bv.1.high) →
      monitorLoop stop totalShares shares fired l = .stopHit := by
  intro l
  induction l with
  | nil =>
    intro shares fired h
    simp at h
  | cons bv rest ih =>
    intro shares fired h
    obtain ⟨b, v⟩ := bv
    by_cases hstop : stop ≤ b.high
    · simp [monitorLoop, hstop]
    · obtain ⟨cv, hcv, hle⟩ := h
      have hmem : cv ∈ rest := by
        rcases List.mem_cons.mp hcv with rfl | hmem
        · exact absurd hle hstop
        · exact hmem
      simp only [monitorLoop, hstop, if_false]
      exact ih _ _ ⟨cv, hmem, hle⟩

/-- C2: whenever the entry bar exists (with a positive entry price, so the
stop sits strictly above the entry) and some bar scanned from the entry
bar on has `high ≥ stop_price`, the strategy produces a trade outcome with
`profit_loss` exactly −6000, the fixed risk budget, regardless of the
number of shares actually shorted. -/
theorem stop_hit_fixed_loss (bars : List Bar) (entryBar : Bar)
    (scan : List (Bar × Option ℚ))
    (hsplit : findEntrySplit (bars.zip (vwapSeries bars)) = some (entryBar, scan))
    (hpos : 0 < entryBar.open_)
    (hhit : ∃ bv ∈ scan, entryBar.open_ * (115 / 100) ≤ bv.1.high) :
    ∃ out, runStrategy bars = some out ∧ out.profit_loss = -6000 := by
  have hrisk : ¬(entryBar.open_ * (115 / 100) - entryBar.open_ ≤ 0) := by
    rw [not_le]
    nlinarith
  refine ⟨⟨entryBar.open_, entryBar.open_ * (115 / 100),
    (entryBar.open_ - entryBar.open_ * (115 / 100)) / entryBar.open_ * 100,
    -fixed_risk_budget⟩, ?_, rfl⟩
  simp only [runStrategy, hsplit]
  rw [if_neg hrisk,
    monitorLoop_stopHit _ _ scan _ _ hhit]

/-- Witness for C2: a single entry-window bar whose high 12 reaches the
stop price 11.5 — the outcome's loss is exactly the fixed risk budget. -/
theorem stop_hit_fixed_loss_witness :
    ∃ out, runStrategy [⟨575, 10, 12, 9, 11, 100⟩] = some out ∧
      out.profit_loss = -6000 :=
  stop_hit_fixed_loss [⟨575, 10, 12, 9, 11, 100⟩] ⟨575, 10, 12, 9, 11, 100⟩
    (([⟨575, 10, 12, 9, 11, 100⟩] : List Bar).zip
      (vwapSeries [⟨575, 10, 12, 9, 11, 100⟩]))
    rfl (by norm_num)
    (by norm_num [vwapSeries, vwapGo, typical_price, List.zip, List.zipWith])

end TradingDashboard
